import Mathlib

/-!
Shallow embedding of the simulation core of `gym-snake-rs` (src/src/game.rs).

Modelling conventions:
* `i32` coordinates become `Int`; the `u32` window bounds become `Nat`
  (coerced to `Int` for comparisons, which matches the Rust casts because the
  casts are only reached after the sign checks short-circuit).
* `f64` timing fields (`last_update_time`, `update_interval`, `base_speed`,
  `args.dt` and the speed formulas) become exact rationals `ℚ`; the decimal
  literals 0.05, 0.1, 3.0, 4.0 are taken exactly.
* `VecDeque<Direction>` becomes `List Direction`, front = list head,
  `push_back` = append at the end, `pop_front` = drop the head.
* The thread-local RNG of `gen_apple_coords` is made explicit: the stream of
  `(random_range x, random_range y)` draws is passed in as a
  `List (Nat × Nat)`; the rejection-sampling loop scans it and returns the
  first acceptable candidate, `none` when the finite stream is exhausted
  (the Rust loop would keep drawing forever, so exhaustion has no Rust
  counterpart and is reported as `none`).
* `Game::update` likewise returns `Option Game`: `none` only in situations
  where the Rust code would panic (empty body on `segments[0]`) or diverge
  (apple respawn with an exhausted candidate stream); both are unreachable
  in actual play.
* The `gl : GlGraphics` handle and the rendering code are external
  collaborators and are dropped from the state.
-/

namespace SnakeGame

/-- The 4-way compass value (src/src/game.rs lines 15-21). -/
inductive Direction where
  | up
  | down
  | left
  | right
deriving DecidableEq, Repr

/-- A grid cell occupied by the snake or the apple, `Segment { x: i32, y: i32 }`
(src/src/game.rs lines 23-27). -/
structure Segment where
  x : Int
  y : Int
deriving DecidableEq, Repr

/-- `GameSettings` (src/src/game.rs lines 29-32). -/
structure GameSettings where
  progressive_speed : Bool
  allow_teleport : Bool
deriving DecidableEq, Repr

/-- The game state, `struct Game` (src/src/game.rs lines 34-50) minus the
`gl` graphics handle. -/
structure Game where
  segments : List Segment
  direction : Direction
  next_direction : Option Direction
  input_buffer : List Direction
  max_buffer_size : Nat
  apple : Segment
  size : Int
  score : Nat
  game_over : Bool
  game_settings : GameSettings
  last_update_time : ℚ
  update_interval : ℚ
  base_speed : ℚ
deriving DecidableEq, Repr

/-- `Game::new` (src/src/game.rs lines 53-97). -/
def Game.new : Game :=
  let size : Int := 30
  { segments := [⟨5 * size, 3 * size⟩, ⟨4 * size, 3 * size⟩, ⟨3 * size, 3 * size⟩]
    direction := Direction.right
    next_direction := none
    input_buffer := []
    max_buffer_size := 2
    apple := ⟨10 * size, 10 * size⟩
    size := size
    score := 0
    game_over := false
    game_settings := { progressive_speed := true, allow_teleport := false }
    last_update_time := 0
    update_interval := 1 / 15
    base_speed := 1 / 8 }

/-- `check_directions` (src/src/game.rs lines 335-344): returns `false` on the
four opposite pairs, `true` otherwise. -/
def check_directions (dir1 : Direction) (dir2 : Direction) : Bool :=
  if (dir1 = Direction.down ∧ dir2 = Direction.up)
      ∨ (dir1 = Direction.up ∧ dir2 = Direction.down)
      ∨ (dir1 = Direction.left ∧ dir2 = Direction.right)
      ∨ (dir1 = Direction.right ∧ dir2 = Direction.left) then
    false
  else
    true

/-- The 180° opposite of a direction — spec-side vocabulary used to state the
reversal properties; the source encodes the relation only inside
`check_directions`. -/
def opposite : Direction → Direction
  | Direction.up => Direction.down
  | Direction.down => Direction.up
  | Direction.left => Direction.right
  | Direction.right => Direction.left

/-- `Game::check_if_collision` (src/src/game.rs lines 224-234).
The Rust code indexes `segments[0]` and would panic on an empty body; that
case is unreachable from `update` (which always prepends a head first), and
we return `false` there. -/
def Game.check_if_collision (g : Game) (windowx windowy : Nat) : Bool :=
  match g.segments with
  | [] => false
  | head :: rest =>
      if head.x < 0 ∨ head.y < 0 ∨ (windowx : Int) ≤ head.x ∨ (windowy : Int) ≤ head.y then
        true
      else
        rest.contains head

/-- `Game::gen_apple_coords` (src/src/game.rs lines 236-256), with the RNG
draw stream explicit: scans the `(x, y)` draws and returns the first candidate
cell `(x * size, y * size)` that lies on no body segment and differs from the
current apple; `none` when the finite stream runs out (the Rust loop would
keep drawing). `windowx`/`windowy` only bound the Rust draws and do not
constrain the scan. -/
def Game.gen_apple_coords (g : Game) (windowx windowy : Nat) :
    List (Nat × Nat) → Option Segment
  | [] => none
  | (x, y) :: rest =>
      let candidate : Segment := ⟨(x : Int) * g.size, (y : Int) * g.size⟩
      if ¬ g.segments.contains candidate ∧ candidate ≠ g.apple then
        some candidate
      else
        g.gen_apple_coords windowx windowy rest

/-- The new head cell: the current head offset by one grid unit (`size`) in
the current direction.  Faithful collapse of the four mutually exclusive
`matches!` blocks of `Game::update` (src/src/game.rs lines 171-207). -/
def Game.new_head (g : Game) (head : Segment) : Segment :=
  match g.direction with
  | Direction.up => ⟨head.x, head.y - g.size⟩
  | Direction.down => ⟨head.x, head.y + g.size⟩
  | Direction.left => ⟨head.x - g.size, head.y⟩
  | Direction.right => ⟨head.x + g.size, head.y⟩

/-- The tick interval used by the gate in `Game::update`
(src/src/game.rs lines 145-154): progressive multiplier `1 + score * 0.05`
capped at `3.0`, else the fixed `update_interval`. -/
def update_current_interval (g : Game) : ℚ :=
  if g.game_settings.progressive_speed then
    let speed_multiplier : ℚ := 1 + (g.score : ℚ) * 0.05
    let max_speed_multiplier : ℚ := 3.0
    let capped_multiplier := min speed_multiplier max_speed_multiplier
    g.base_speed / capped_multiplier
  else
    g.update_interval

/-- `Game::update` (src/src/game.rs lines 136-222). -/
def Game.update (g : Game) (dt : ℚ) (windowx windowy : Nat)
    (draws : List (Nat × Nat)) : Option Game :=
  if g.game_over then some g
  else
    let g1 : Game := { g with last_update_time := g.last_update_time + dt }
    let current_interval := update_current_interval g1
    if g1.last_update_time < current_interval then some g1
    else
      let g2 : Game := { g1 with last_update_time := 0 }
      let g3 : Game :=
        match g2.input_buffer with
        | [] => g2
        | new_dir :: restBuf =>
            if check_directions g2.direction new_dir then
              { g2 with direction := new_dir, input_buffer := restBuf }
            else
              { g2 with input_buffer := restBuf }
      match g3.segments with
      | [] => none
      | head :: _ =>
          let nh := g3.new_head head
          let g4 : Game := { g3 with segments := nh :: g3.segments }
          if g4.check_if_collision windowx windowy then
            some { g4 with game_over := true }
          else if nh.x = g4.apple.x ∧ nh.y = g4.apple.y then
            match g4.gen_apple_coords windowx windowy draws with
            | none => none
            | some a => some { g4 with apple := a, score := g4.score + 1 }
          else
            some { g4 with segments := g4.segments.dropLast }

/-- Phase 1 of a tick: pop the front of the input buffer and adopt it as the
current direction when it passes `check_directions` against the current
direction (src/src/game.rs lines 165-169). -/
def tick_input (g : Game) : Game :=
  match g.input_buffer with
  | [] => g
  | new_dir :: restBuf =>
      if check_directions g.direction new_dir then
        { g with direction := new_dir, input_buffer := restBuf }
      else
        { g with input_buffer := restBuf }

/-- Phase 2 of a tick: prepend the new head (src/src/game.rs lines 171-207);
`none` when the body is empty (Rust would panic on `segments[0]`). -/
def tick_move (g : Game) : Option Game :=
  match g.segments with
  | [] => none
  | head :: _ => some { g with segments := g.new_head head :: g.segments }

/-- Phase 3 of a tick: collision check, then apple consumption or tail pop
(src/src/game.rs lines 209-221). -/
def tick_resolve (g : Game) (windowx windowy : Nat)
    (draws : List (Nat × Nat)) : Option Game :=
  if g.check_if_collision windowx windowy then
    some { g with game_over := true }
  else
    match g.segments with
    | [] => none
    | head :: _ =>
        if head.x = g.apple.x ∧ head.y = g.apple.y then
          match g.gen_apple_coords windowx windowy draws with
          | none => none
          | some a => some { g with apple := a, score := g.score + 1 }
        else
          some { g with segments := g.segments.dropLast }

/-- The direction-press part of `Game::change_directions`
(src/src/game.rs lines 279-299); the keyboard decoding and the `P` pause key
are input-mapping glue outside the core. -/
def Game.change_directions (g : Game) (p_dir : Direction) : Game :=
  let g1 : Game :=
    if g.input_buffer.isEmpty then
      if check_directions g.direction p_dir then
        { g with input_buffer := g.input_buffer ++ [p_dir] }
      else g
    else
      match g.input_buffer.getLast? with
      | some last_buffered =>
          if check_directions last_buffered p_dir then
            { g with input_buffer := g.input_buffer ++ [p_dir] }
          else g
      | none => g
  if g1.input_buffer.length > g1.max_buffer_size then
    { g1 with input_buffer := g1.input_buffer.tail }
  else g1

/-- `Game::toggle_progressive_speed` (src/src/game.rs lines 318-320). -/
def Game.toggle_progressive_speed (g : Game) : Game :=
  { g with game_settings :=
      { g.game_settings with progressive_speed := ¬ g.game_settings.progressive_speed } }

/-- `Game::get_current_speed_info` (src/src/game.rs lines 322-332):
reports `(1 / interval, progressive_flag)` where its interval uses the
progressive multiplier `1 + score * 0.1` capped at `4.0`. -/
def Game.get_current_speed_info (g : Game) : ℚ × Bool :=
  let current_interval :=
    if g.game_settings.progressive_speed then
      let speed_multiplier : ℚ := 1 + (g.score : ℚ) * 0.1
      let max_speed_multiplier : ℚ := 4.0
      let capped_multiplier := min speed_multiplier max_speed_multiplier
      g.base_speed / capped_multiplier
    else
      g.update_interval
  (1 / current_interval, g.game_settings.progressive_speed)

/-- States reachable from `Game.new` by any interleaving of `update` and
`change_directions` calls (with any timing, bounds and RNG draws). -/
inductive Reachable : Game → Prop where
  | init : Reachable Game.new
  | step_update (g : Game) (dt : ℚ) (windowx windowy : Nat)
      (draws : List (Nat × Nat)) (g2 : Game) :
      Reachable g → g.update dt windowx windowy draws = some g2 → Reachable g2
  | step_change (g : Game) (p_dir : Direction) :
      Reachable g → Reachable (g.change_directions p_dir)

/-- The spec's §8 scenario state in pure grid units: 16×16 arena with
`size = 1`, body `[(5,3),(4,3),(3,3)]` facing right, apple at `(10,10)`,
empty input buffer, fixed speed. -/
def grid_state : Game :=
  { segments := [⟨5, 3⟩, ⟨4, 3⟩, ⟨3, 3⟩]
    direction := Direction.right
    next_direction := none
    input_buffer := []
    max_buffer_size := 2
    apple := ⟨10, 10⟩
    size := 1
    score := 0
    game_over := false
    game_settings := { progressive_speed := false, allow_teleport := false }
    last_update_time := 0
    update_interval := mkRat 1 15
    base_speed := mkRat 1 8 }

/-- The scenario state with the apple moved onto the incoming head cell. -/
def grid_state_apple : Game := { grid_state with apple := ⟨6, 3⟩ }

/-- The scenario state heading left into the wall from `(0,3)`. -/
def wall_state : Game :=
  { grid_state with segments := [⟨0, 3⟩, ⟨1, 3⟩, ⟨2, 3⟩], direction := Direction.left }

/-- The scenario state with a full two-entry input buffer. -/
def buffered_state : Game :=
  { grid_state with input_buffer := [Direction.up, Direction.left] }

/-- The scenario state after a collision has already ended the game. -/
def over_state : Game := { grid_state with game_over := true }

/-- The initial game state one apple later: score 1, progressive speed on. -/
def speed_bug_state : Game := { Game.new with score := 1 }

lemma check_directions_false_iff (d1 d2 : Direction) :
    check_directions d1 d2 = false ↔ d2 = opposite d1 := by
  cases d1 <;> cases d2 <;> decide

lemma check_directions_true_iff (d1 d2 : Direction) :
    check_directions d1 d2 = true ↔ ¬ d2 = opposite d1 := by
  cases d1 <;> cases d2 <;> decide

lemma opposite_ne_self (d : Direction) : opposite d ≠ d := by
  cases d <;> decide

lemma check_directions_opposite (d : Direction) :
    check_directions d (opposite d) = false := by
  cases d <;> rfl

lemma Segment.eq_of_parts {a b : Segment} (hx : a.x = b.x) (hy : a.y = b.y) : a = b := by
  cases a; cases b; cases hx; cases hy; rfl

lemma update_current_interval_set_time (g : Game) (t : ℚ) :
    update_current_interval { g with last_update_time := t } = update_current_interval g := rfl

lemma tick_input_segments (g : Game) : (tick_input g).segments = g.segments := by
  unfold tick_input
  cases g.input_buffer with
  | nil => rfl
  | cons d rest => by_cases h : check_directions g.direction d = true <;> simp [h]

lemma tick_input_score (g : Game) : (tick_input g).score = g.score := by
  unfold tick_input
  cases g.input_buffer with
  | nil => rfl
  | cons d rest => by_cases h : check_directions g.direction d = true <;> simp [h]

lemma tick_input_apple (g : Game) : (tick_input g).apple = g.apple := by
  unfold tick_input
  cases g.input_buffer with
  | nil => rfl
  | cons d rest => by_cases h : check_directions g.direction d = true <;> simp [h]

lemma tick_input_direction (g : Game) :
    (tick_input g).direction = g.direction ∨
      check_directions g.direction (tick_input g).direction = true := by
  unfold tick_input
  cases g.input_buffer with
  | nil => exact Or.inl rfl
  | cons d rest =>
      dsimp only
      by_cases h : check_directions g.direction d = true
      · rw [if_pos h]; exact Or.inr h
      · rw [if_neg h]; exact Or.inl rfl

lemma update_not_due (g : Game) (dt : ℚ) (wx wy : Nat) (draws : List (Nat × Nat))
    (hgo : g.game_over = false)
    (hlt : g.last_update_time + dt < update_current_interval g) :
    g.update dt wx wy draws = some { g with last_update_time := g.last_update_time + dt } := by
  unfold Game.update
  rw [if_neg (by simp [hgo])]
  dsimp only
  rw [update_current_interval_set_time]
  rw [if_pos hlt]

lemma update_due (g : Game) (dt : ℚ) (wx wy : Nat) (draws : List (Nat × Nat))
    (hgo : g.game_over = false)
    (hge : ¬ g.last_update_time + dt < update_current_interval g) :
    g.update dt wx wy draws =
      (tick_move (tick_input { g with last_update_time := 0 })).bind
        (fun gm => tick_resolve gm wx wy draws) := by
  unfold Game.update tick_input tick_move tick_resolve
  rw [if_neg (by simp [hgo])]
  dsimp only
  rw [update_current_interval_set_time]
  rw [if_neg hge]
  cases hb : g.input_buffer with
  | nil =>
      cases hs : g.segments with
      | nil => rfl
      | cons head rest => rfl
  | cons d restBuf =>
      dsimp only
      by_cases hc : check_directions g.direction d = true
      · rw [if_pos hc]
        cases hs : g.segments with
        | nil => rfl
        | cons head rest => rfl
      · rw [if_neg hc]
        cases hs : g.segments with
        | nil => rfl
        | cons head rest => rfl

lemma gen_apple_coords_spec (g : Game) (wx wy : Nat) (draws : List (Nat × Nat)) (a : Segment)
    (h : g.gen_apple_coords wx wy draws = some a) :
    a ∉ g.segments ∧ a ≠ g.apple := by
  induction draws with
  | nil => exact absurd h (by simp [Game.gen_apple_coords])
  | cons p rest ih =>
      obtain ⟨x, y⟩ := p
      unfold Game.gen_apple_coords at h
      dsimp only at h
      split at h
      case isTrue hcond =>
        cases h
        refine ⟨fun hmem => hcond.1 (List.elem_iff.2 hmem), hcond.2⟩
      case isFalse hcond => exact ih h

lemma tick_move_direction (g g2 : Game) (h : tick_move g = some g2) :
    g2.direction = g.direction := by
  unfold tick_move at h
  cases hs : g.segments with
  | nil => rw [hs] at h; cases h
  | cons head rest => rw [hs] at h; cases h; rfl

lemma tick_resolve_direction (g : Game) (wx wy : Nat) (draws : List (Nat × Nat)) (g2 : Game)
    (h : tick_resolve g wx wy draws = some g2) : g2.direction = g.direction := by
  unfold tick_resolve at h
  split at h
  · cases h; rfl
  · split at h
    · cases h
    · split at h
      · split at h
        · cases h
        · cases h; rfl
      · cases h; rfl

lemma update_direction_cases (g : Game) (dt : ℚ) (wx wy : Nat) (draws : List (Nat × Nat))
    (g2 : Game) (h : g.update dt wx wy draws = some g2) :
    g2.direction = g.direction ∨ check_directions g.direction g2.direction = true := by
  by_cases hgo : g.game_over = true
  · unfold Game.update at h
    rw [if_pos hgo] at h
    cases h
    exact Or.inl rfl
  · have hgo2 : g.game_over = false := by revert hgo; cases g.game_over <;> simp
    by_cases hlt : g.last_update_time + dt < update_current_interval g
    · rw [update_not_due g dt wx wy draws hgo2 hlt] at h
      cases h
      exact Or.inl rfl
    · rw [update_due g dt wx wy draws hgo2 hlt] at h
      cases hm : tick_move (tick_input { g with last_update_time := 0 }) with
      | none => rw [hm] at h; cases h
      | some gm =>
          rw [hm, Option.some_bind] at h
          have h1 : g2.direction = gm.direction := tick_resolve_direction gm wx wy draws g2 h
          have h2 : gm.direction = (tick_input { g with last_update_time := 0 }).direction :=
            tick_move_direction _ gm hm
          rcases tick_input_direction { g with last_update_time := 0 } with h3 | h3
          · exact Or.inl (by rw [h1, h2, h3])
          · exact Or.inr (by rw [h1, h2]; exact h3)

/-- C1: in a non-game-over state with a tick due, writing `G` for the state
after the buffered-input phase, if the new head (the old head offset by one
grid unit, `size`, in the current direction) collides with nothing and does
not coincide with the apple, then one `update` call prepends that head,
removes the tail cell, and leaves body length and score unchanged. -/
theorem C1_plain_move_step (g G : Game) (dt : ℚ) (wx wy : Nat) (draws : List (Nat × Nat))
    (head : Segment) (rest : List Segment)
    (hgo : g.game_over = false)
    (hdue : ¬ g.last_update_time + dt < update_current_interval g)
    (hG : tick_input { g with last_update_time := 0 } = G)
    (hseg : G.segments = head :: rest)
    (hcol : Game.check_if_collision
        { G with segments := G.new_head head :: head :: rest } wx wy = false)
    (happle : G.new_head head ≠ G.apple) :
    g.update dt wx wy draws =
      some { G with segments := G.new_head head :: (head :: rest).dropLast } ∧
    (G.new_head head :: (head :: rest).dropLast).length = G.segments.length ∧
    G.score = g.score := by
  have hdec := update_due g dt wx wy draws hgo hdue
  rw [hG] at hdec
  have hmove : tick_move G = some { G with segments := G.new_head head :: head :: rest } := by
    unfold tick_move
    rw [hseg]
  rw [hmove, Option.some_bind] at hdec
  have hres : tick_resolve { G with segments := G.new_head head :: head :: rest } wx wy draws =
      some { G with segments := G.new_head head :: (head :: rest).dropLast } := by
    unfold tick_resolve
    rw [if_neg (by simp [hcol])]
    dsimp only
    rw [if_neg (fun hxy => happle (Segment.eq_of_parts hxy.1 hxy.2))]
    rw [List.dropLast_cons₂]
  refine ⟨hdec.trans hres, ?_, ?_⟩
  · rw [hseg]
    simp [List.length_dropLast]
  · rw [← hG, tick_input_score]

/-- C2: in a non-game-over state with a tick due, writing `G` for the state
after the buffered-input phase, if the new head collides with nothing and
lands on the apple, then one `update` call increments the score by exactly 1,
keeps the tail (the body grows by one segment), and relocates the apple to
the respawn result, which avoids every body cell and the previous apple. -/
theorem C2_apple_step (g G : Game) (dt : ℚ) (wx wy : Nat) (draws : List (Nat × Nat))
    (head : Segment) (rest : List Segment) (a : Segment)
    (hgo : g.game_over = false)
    (hdue : ¬ g.last_update_time + dt < update_current_interval g)
    (hG : tick_input { g with last_update_time := 0 } = G)
    (hseg : G.segments = head :: rest)
    (hcol : Game.check_if_collision
        { G with segments := G.new_head head :: head :: rest } wx wy = false)
    (happle : G.new_head head = G.apple)
    (hgen : Game.gen_apple_coords
        { G with segments := G.new_head head :: head :: rest } wx wy draws = some a) :
    g.update dt wx wy draws =
      some { G with segments := G.new_head head :: head :: rest,
                    apple := a, score := G.score + 1 } ∧
    a ∉ G.new_head head :: head :: rest ∧
    a ≠ G.apple ∧
    (G.new_head head :: head :: rest).length = G.segments.length + 1 ∧
    G.score = g.score ∧ G.apple = g.apple := by
  have hdec := update_due g dt wx wy draws hgo hdue
  rw [hG] at hdec
  have hmove : tick_move G = some { G with segments := G.new_head head :: head :: rest } := by
    unfold tick_move
    rw [hseg]
  rw [hmove, Option.some_bind] at hdec
  have hspec := gen_apple_coords_spec
    { G with segments := G.new_head head :: head :: rest } wx wy draws a hgen
  have hres : tick_resolve { G with segments := G.new_head head :: head :: rest } wx wy draws =
      some { G with segments := G.new_head head :: head :: rest,
                    apple := a, score := G.score + 1 } := by
    unfold tick_resolve
    rw [if_neg (by simp [hcol])]
    dsimp only
    rw [if_pos (by rw [happle]; exact ⟨rfl, rfl⟩)]
    rw [hgen]
  refine ⟨hdec.trans hres, hspec.1, hspec.2, ?_, ?_, ?_⟩
  · rw [hseg]
    simp
  · rw [← hG, tick_input_score]
  · rw [← hG, tick_input_apple]

/-- C3: in a non-game-over state with a tick due, writing `G` for the state
after the buffered-input phase, if the body with the newly prepended head
satisfies the collision predicate, then one `update` call sets `game_over`
and stops: the prepended head stays (body length is the old length + 1),
the tail is not removed, and score and apple are untouched. -/
theorem C3_collision_step (g G : Game) (dt : ℚ) (wx wy : Nat) (draws : List (Nat × Nat))
    (head : Segment) (rest : List Segment)
    (hgo : g.game_over = false)
    (hdue : ¬ g.last_update_time + dt < update_current_interval g)
    (hG : tick_input { g with last_update_time := 0 } = G)
    (hseg : G.segments = head :: rest)
    (hcol : Game.check_if_collision
        { G with segments := G.new_head head :: head :: rest } wx wy = true) :
    g.update dt wx wy draws =
      some { G with segments := G.new_head head :: head :: rest, game_over := true } ∧
    (G.new_head head :: head :: rest).length = G.segments.length + 1 ∧
    G.score = g.score ∧ G.apple = g.apple := by
  have hdec := update_due g dt wx wy draws hgo hdue
  rw [hG] at hdec
  have hmove : tick_move G = some { G with segments := G.new_head head :: head :: rest } := by
    unfold tick_move
    rw [hseg]
  rw [hmove, Option.some_bind] at hdec
  have hres : tick_resolve { G with segments := G.new_head head :: head :: rest } wx wy draws =
      some { G with segments := G.new_head head :: head :: rest, game_over := true } := by
    unfold tick_resolve
    rw [if_pos hcol]
  refine ⟨hdec.trans hres, ?_, ?_, ?_⟩
  · rw [hseg]
    simp
  · rw [← hG, tick_input_score]
  · rw [← hG, tick_input_apple]

/-- C4: once `game_over` is set, `update` returns the state unchanged for
every elapsed time, arena bounds and RNG stream: body, score, apple,
direction, input buffer and the terminal flag are all exactly as before. -/
theorem C4_game_over_frozen (g : Game) (dt : ℚ) (wx wy : Nat) (draws : List (Nat × Nat))
    (hgo : g.game_over = true) :
    g.update dt wx wy draws = some g := by
  unfold Game.update
  rw [if_pos hgo]

/-- C5: for every non-empty body and positive arena bounds, the collision
predicate holds exactly when the head lies outside the half-open rectangle
`[0, width) × [0, height)` or equals some cell of the tail sequence. -/
theorem C5_collision_characterisation (g : Game) (wx wy : Nat) (head : Segment)
    (rest : List Segment)
    (hseg : g.segments = head :: rest) (hwx : 0 < wx) (hwy : 0 < wy) :
    g.check_if_collision wx wy = true ↔
      (head.x < 0 ∨ head.y < 0 ∨ (wx : Int) ≤ head.x ∨ (wy : Int) ≤ head.y ∨ head ∈ rest) := by
  unfold Game.check_if_collision
  rw [hseg]
  dsimp only
  by_cases hb : head.x < 0 ∨ head.y < 0 ∨ (wx : Int) ≤ head.x ∨ (wy : Int) ≤ head.y
  · rw [if_pos hb]
    simp only [true_iff]
    tauto
  · rw [if_neg hb]
    rw [show (rest.contains head = true ↔ head ∈ rest) from List.elem_iff]
    push_neg at hb
    constructor
    · intro hmem
      tauto
    · intro hdisj
      rcases hdisj with h | h | h | h | h
      · exact absurd h (by omega)
      · exact absurd h (by omega)
      · exact absurd h (by omega)
      · exact absurd h (by omega)
      · exact h

/-- C6: the reversal test is a pure total function on all 16 ordered pairs of
directions, returning `false` exactly when the candidate is the 180° opposite
of the reference (Up↔Down, Left↔Right); every non-opposite pair — equal
directions included — is accepted. -/
theorem C6_reversal_test (d1 d2 : Direction) :
    check_directions d1 d2 = false ↔ d2 = opposite d1 := by
  cases d1 <;> cases d2 <;> decide

/-- C7: a direction press is validated against the current direction when the
buffer is empty and against the last buffered entry otherwise; exactly
reversals are rejected (an equal candidate is enqueued); an accepted press is
appended at the back, and then the front entry is dropped when the length
exceeds `max_buffer_size` = 2 — so after every call the buffer holds at most
2 entries, oldest first, with a burst keeping the newest entries. -/
theorem C7_input_buffering (g : Game) (p_dir : Direction)
    (hmax : g.max_buffer_size = 2)
    (hlen : g.input_buffer.length ≤ 2) :
    g.change_directions p_dir =
      (if p_dir = opposite (g.input_buffer.getLastD g.direction) then g
       else if 2 < (g.input_buffer ++ [p_dir]).length then
         { g with input_buffer := (g.input_buffer ++ [p_dir]).tail }
       else { g with input_buffer := g.input_buffer ++ [p_dir] }) ∧
    (g.change_directions p_dir).input_buffer.length ≤ 2 := by
  obtain ⟨segs, dir, nd, buf, mbs, apple, size, score, go, gs, lut, ui, bs⟩ := g
  dsimp only at hmax hlen ⊢
  subst hmax
  have hmain : Game.change_directions
        ⟨segs, dir, nd, buf, 2, apple, size, score, go, gs, lut, ui, bs⟩ p_dir =
      (if p_dir = opposite (buf.getLastD dir) then
        (⟨segs, dir, nd, buf, 2, apple, size, score, go, gs, lut, ui, bs⟩ : Game)
       else if 2 < (buf ++ [p_dir]).length then
         ⟨segs, dir, nd, (buf ++ [p_dir]).tail, 2, apple, size, score, go, gs, lut, ui, bs⟩
       else ⟨segs, dir, nd, buf ++ [p_dir], 2, apple, size, score, go, gs, lut, ui, bs⟩) := by
    cases buf with
    | nil =>
        by_cases hc : check_directions dir p_dir = true
        · have hne : ¬ p_dir = opposite dir :=
            (check_directions_true_iff dir p_dir).1 hc
          simp [Game.change_directions, hc, hne, List.getLastD]
        · have heq : p_dir = opposite dir :=
            (check_directions_false_iff dir p_dir).1
              (by revert hc; cases check_directions dir p_dir <;> simp)
          simp [Game.change_directions, heq, check_directions_opposite, List.getLastD]
    | cons d0 restB =>
        obtain ⟨lb, hlast⟩ : ∃ lb, (d0 :: restB).getLast? = some lb :=
          Option.isSome_iff_exists.1 (by simp [List.getLast?_isSome])
        have hlastD : (d0 :: restB).getLastD dir = lb := by
          rw [List.getLastD_eq_getLast?, hlast]
          rfl
        by_cases hc : check_directions lb p_dir = true
        · have hne : ¬ p_dir = opposite lb :=
            (check_directions_true_iff lb p_dir).1 hc
          simp [Game.change_directions, hlast, hlastD, hc, hne]
        · have heq : p_dir = opposite lb :=
            (check_directions_false_iff lb p_dir).1
              (by revert hc; cases check_directions lb p_dir <;> simp)
          have hnoflow : ¬ ((d0 :: restB).length > 2) := by
            simp at hlen ⊢
            omega
          simp [Game.change_directions, hlast, hlastD, heq, check_directions_opposite, hnoflow]
          simp at hlen
          omega
  refine ⟨hmain, ?_⟩
  rw [hmain]
  by_cases h1 : p_dir = opposite (buf.getLastD dir)
  · rw [if_pos h1]
    exact hlen
  · rw [if_neg h1]
    by_cases h2 : 2 < (buf ++ [p_dir]).length
    · rw [if_pos h2]
      dsimp only
      simp only [List.length_tail, List.length_append, List.length_cons, List.length_nil]
      omega
    · rw [if_neg h2]
      dsimp only
      omega

/-- C8: for every non-game-over state, `update` adds the elapsed time to the
accumulator; when the result is strictly below the current tick interval the
call changes nothing else, and otherwise the accumulator is reset to exactly
zero and a logical tick runs as input-dequeue, then movement, then
collision/apple resolution, in that order. -/
theorem C8_accumulate_and_order (g : Game) (dt : ℚ) (wx wy : Nat) (draws : List (Nat × Nat))
    (hgo : g.game_over = false) :
    (g.last_update_time + dt < update_current_interval g →
        g.update dt wx wy draws = some { g with last_update_time := g.last_update_time + dt }) ∧
    (¬ g.last_update_time + dt < update_current_interval g →
        g.update dt wx wy draws =
          (tick_move (tick_input { g with last_update_time := 0 })).bind
            (fun gm => tick_resolve gm wx wy draws)) :=
  ⟨fun h => update_not_due g dt wx wy draws hgo h,
   fun h => update_due g dt wx wy draws hgo h⟩

/-- C10: from every reachable state, an `update` call that returns a state
never sets the current direction to the 180° opposite of its previous value:
the consumption-time validation in `update` rejects any buffered reversal,
so the snake cannot reverse in place. -/
theorem C10_no_reversal_ever (g : Game) (hreach : Reachable g) (dt : ℚ) (wx wy : Nat)
    (draws : List (Nat × Nat)) (g2 : Game)
    (h : g.update dt wx wy draws = some g2) :
    g2.direction ≠ opposite g.direction := by
  rcases update_direction_cases g dt wx wy draws g2 h with heq | hok
  · rw [heq]
    exact fun hcontra => opposite_ne_self g.direction hcontra.symm
  · intro hOpp
    rw [hOpp, check_directions_opposite] at hok
    cases hok

section

attribute [local semireducible] Rat.add Rat.mul Rat.inv Rat.sub Rat.ofScientific

/-- C9: the two speed-formula sites disagree.  At score 1 (progressive mode,
`base_speed` = 1/8) the tick gate in `update` uses interval
`base / min (1 + score * 0.05) 3 = 5/42`, while `get_current_speed_info`
reports the reciprocal of `base / min (1 + score * 0.1) 4 = 5/44`; the two
are not equal, and concretely an elapsed time of 5/43 — beyond the reported
interval — does not fire a tick. -/
theorem C9_speed_constants_divergence :
    update_current_interval speed_bug_state = mkRat 5 42 ∧
    1 / (Game.get_current_speed_info speed_bug_state).1 = mkRat 5 44 ∧
    update_current_interval speed_bug_state ≠
      1 / (Game.get_current_speed_info speed_bug_state).1 ∧
    speed_bug_state.update (mkRat 5 43) 480 480 [] =
      some { speed_bug_state with last_update_time := mkRat 5 43 } ∧
    ¬ speed_bug_state.last_update_time + mkRat 5 43 <
        1 / (Game.get_current_speed_info speed_bug_state).1 := by
  decide

/-- C1 witness: the spec's §8 scenario — body [(5,3),(4,3),(3,3)] facing
right, apple (10,10), 16×16 arena, empty buffer — one tick yields body
[(6,3),(5,3),(4,3)] with the score still 0. -/
theorem C1_witness :
    grid_state.update 1 16 16 [] =
      some { grid_state with segments := [⟨6, 3⟩, ⟨5, 3⟩, ⟨4, 3⟩], last_update_time := 0 } := by
  have h := C1_plain_move_step grid_state { grid_state with last_update_time := 0 }
    1 16 16 [] ⟨5, 3⟩ [⟨4, 3⟩, ⟨3, 3⟩] (by decide) (by decide) (by decide) (by decide)
    (by decide) (by decide)
  exact h.1

/-- C2 witness: same scenario with the apple at (6,3) — one tick grows the
body to length 4, sets the score to 1, and respawns the apple on the first
acceptable RNG draw (2,2). -/
theorem C2_witness :
    grid_state_apple.update 1 16 16 [(2, 2)] =
      some { grid_state_apple with segments := [⟨6, 3⟩, ⟨5, 3⟩, ⟨4, 3⟩, ⟨3, 3⟩],
                                   apple := ⟨2, 2⟩, score := 1, last_update_time := 0 } ∧
    (⟨2, 2⟩ : Segment) ∉ ([⟨6, 3⟩, ⟨5, 3⟩, ⟨4, 3⟩, ⟨3, 3⟩] : List Segment) ∧
    (⟨2, 2⟩ : Segment) ≠ grid_state_apple.apple := by
  have h := C2_apple_step grid_state_apple { grid_state_apple with last_update_time := 0 }
    1 16 16 [(2, 2)] ⟨5, 3⟩ [⟨4, 3⟩, ⟨3, 3⟩] ⟨2, 2⟩ (by decide) (by decide) (by decide)
    (by decide) (by decide) (by decide) (by decide)
  exact ⟨h.1, h.2.1, h.2.2.1⟩

/-- C3 witness: the spec's wall scenario — body [(0,3),(1,3),(2,3)] heading
left — one tick prepends (-1,3), keeps all four segments, and sets
`game_over`. -/
theorem C3_witness :
    wall_state.update 1 16 16 [] =
      some { wall_state with segments := [⟨-1, 3⟩, ⟨0, 3⟩, ⟨1, 3⟩, ⟨2, 3⟩],
                             game_over := true, last_update_time := 0 } := by
  have h := C3_collision_step wall_state { wall_state with last_update_time := 0 }
    1 16 16 [] ⟨0, 3⟩ [⟨1, 3⟩, ⟨2, 3⟩] (by decide) (by decide) (by decide) (by decide)
    (by decide)
  exact h.1

/-- C4 witness: in the terminal scenario state an `update` call leaves the
state untouched. -/
theorem C4_witness :
    over_state.update 1 16 16 [] = some over_state :=
  C4_game_over_frozen over_state 1 16 16 [] (by decide)

/-- C5 witness: a body whose head (5,3) reappears in its tail inside a 16×16
arena is collided exactly as the characterisation states. -/
theorem C5_witness :
    Game.check_if_collision { grid_state with segments := [⟨5, 3⟩, ⟨4, 3⟩, ⟨5, 3⟩] } 16 16 = true ↔
      ((5 : Int) < 0 ∨ (3 : Int) < 0 ∨ (16 : Int) ≤ (5 : Int) ∨ (16 : Int) ≤ (3 : Int) ∨
        (⟨5, 3⟩ : Segment) ∈ ([⟨4, 3⟩, ⟨5, 3⟩] : List Segment)) :=
  C5_collision_characterisation { grid_state with segments := [⟨5, 3⟩, ⟨4, 3⟩, ⟨5, 3⟩] }
    16 16 ⟨5, 3⟩ [⟨4, 3⟩, ⟨5, 3⟩] (by decide) (by decide) (by decide)

/-- C7 witness: with the buffer already holding [up, left], pressing down
(valid against the last entry, left) appends it and then drops the oldest
entry, leaving [left, down] — at most 2 entries, newest kept. -/
theorem C7_witness :
    (buffered_state.change_directions Direction.down).input_buffer =
      [Direction.left, Direction.down] ∧
    (buffered_state.change_directions Direction.down).input_buffer.length ≤ 2 := by
  have h := C7_input_buffering buffered_state Direction.down (by decide) (by decide)
  refine ⟨?_, h.2⟩
  rw [h.1]
  decide

/-- C8 witness: an elapsed time of 1/100 s in the scenario state (interval
1/15 s) only accumulates time and changes nothing else. -/
theorem C8_witness :
    grid_state.update (mkRat 1 100) 16 16 [] =
      some { grid_state with last_update_time := grid_state.last_update_time + mkRat 1 100 } :=
  (C8_accumulate_and_order grid_state (mkRat 1 100) 16 16 [] (by decide)).1 (by decide)

/-- C10 witness: from the initial state (reachable by definition), the first
tick leaves the direction at right, which is not the opposite of right. -/
theorem C10_witness :
    ∃ g2, Game.new.update 1 480 480 [] = some g2 ∧
      g2.direction ≠ opposite Game.new.direction := by
  have h : Game.new.update 1 480 480 [] =
      some { Game.new with segments := [⟨180, 90⟩, ⟨150, 90⟩, ⟨120, 90⟩],
                           last_update_time := 0 } := by
    decide
  exact ⟨_, h, C10_no_reversal_ever Game.new Reachable.init 1 480 480 [] _ h⟩

end

end SnakeGame
